import Mathlib

/-!
Verification of the SPD3303X SCPI client (codec framework, command catalog
and session layer).  Rust `&str` cursors are modelled as `List Char`; a
deserializer takes the remaining input and returns the outcome together
with the final cursor (Rust mutates the cursor in place, so a returned
fault still carries the cursor exactly as the partial parse left it).
Rust panics (fatal aborts) are a distinct outcome from returned `Err`
fault values; `u16` arithmetic models the checked (debug) semantics, which
aborts on overflow.
-/

abbrev Str := List Char

/-- View a Lean string literal as a cursor content. -/
def str (s : String) : Str := s.data

/-- The detail data carried by each `Error::ResponseDecoding` construction
site; each constructor holds the values interpolated into the Rust
message. -/
inductive DecodeDetail where
  | expectedLiteral (literal remainder : Str)
  | numberParsing (digits : Str)
  | unexpectedToken (enumName : String) (remainder : Str)
  | hexParsing
  | notEmpty (remainder : Str)
  deriving DecidableEq

/-- The reasons a `ConnectFailed` fault is built in `connect_hostname`. -/
inductive ConnectReason where
  | noAddresses
  | allFailed
  deriving DecidableEq

/-- The crate's `Error` enum (src/lib.rs). -/
inductive Error where
  | responseDecoding (d : DecodeDetail)
  | ioError
  | connectFailed (r : ConnectReason)
  | serialMismatch
  | other
  deriving DecidableEq

/-- Outcome of a Rust function of plain result type `alpha` that may also
abort with a panic. -/
inductive PanicOr (α : Type) where
  | panicked (msg : String)
  | returned (a : α)
  deriving DecidableEq

/-- Outcome of `ScpiDeserialize::deserialize` on a `&mut &str` cursor:
a fatal abort, a returned fault together with the cursor as the call left
it, or a value together with the advanced cursor. -/
inductive DRes (α : Type) where
  | fatal (msg : String)
  | err (e : Error) (rest : Str)
  | ok (a : α) (rest : Str)
  deriving DecidableEq

/-- Rust `str::strip_prefix`: `some rest` exactly when the first argument
is a prefix, anchored and case-exact. -/
def stripPre : Str → Str → Option Str
  | [], input => some input
  | _ :: _, [] => none
  | l :: ls, c :: cs => if l = c then stripPre ls cs else none

/-- `match_literal` (src/lib.rs): advance past `literal`, or fail leaving
the cursor untouched. -/
def matchLiteral (literal : Str) (input : Str) : DRes Unit :=
  match stripPre literal input with
  | some rest => .ok () rest
  | none => .err (.responseDecoding (.expectedLiteral literal input)) input

/-- `read_while` (src/lib.rs): the maximal prefix satisfying the
predicate, paired with the advanced cursor; never fails. -/
def readWhile (p : Char → Bool) (input : Str) : Str × Str :=
  (input.takeWhile p, input.dropWhile p)

/-- The numeric value of a run of decimal digit characters. -/
def digitsVal (s : Str) : Nat :=
  s.foldl (fun a c => a * 10 + (c.toNat - 48)) 0

/-- Rust `str::parse::<u16>` on the digit runs produced by
`read_while(char::is_numeric)`: fails on an empty run or on a value above
`u16::MAX`. -/
def parseU16 (s : Str) : Option Nat :=
  if s = [] then none
  else if s.all Char.isDigit then
    if digitsVal s ≤ 65535 then some (digitsVal s) else none
  else none

/-- `impl ScpiDeserialize for u16` (src/lib.rs): scan a maximal digit run,
then parse it; the scan advances the cursor even when the parse fails. -/
def u16Deserialize (input : Str) : DRes Nat :=
  let digits := (readWhile Char.isDigit input).1
  let rest := (readWhile Char.isDigit input).2
  match parseU16 digits with
  | some v => .ok v rest
  | none => .err (.responseDecoding (.numberParsing digits)) rest

/-- `Reading` (src/commands.rs): a physical quantity as an integer count
of thousandths, `u16` in the source. -/
structure Reading where
  millis : Nat
  deriving DecidableEq

def Reading.fromMillis (m : Nat) : Reading := ⟨m⟩

/-- Decimal digit characters of `n`, most significant first, as rendered
by Rust `{n}` formatting of an integer; fuel-based so the kernel can
evaluate it (the fuel `n` bounds the digit count). -/
def natDecimalAux : Nat → Nat → Str
  | 0, _ => []
  | _ + 1, 0 => []
  | fuel + 1, n + 1 =>
    natDecimalAux fuel ((n + 1) / 10) ++ [Char.ofNat (48 + (n + 1) % 10)]

/-- Decimal rendering of a natural number (Rust integer formatting). -/
def natDecimal (n : Nat) : Str :=
  if n = 0 then ['0'] else natDecimalAux n n

/-- Left zero-padding to width three, as Rust `{frac:03}` formatting. -/
def pad3 (s : Str) : Str := List.replicate (3 - s.length) '0' ++ s

/-- `impl ScpiSerialize for Reading`: the text appended for the wire form
`<whole>.<frac-3-digits>`. -/
def Reading.serialize (r : Reading) : Str :=
  natDecimal (r.millis / 1000) ++ '.' :: pad3 (natDecimal (r.millis % 1000))

/-- `impl ScpiDeserialize for Reading`: whole part, literal dot,
fractional part; `whole_part * 1000 + frac_part` is `u16` arithmetic,
which aborts on overflow under debug overflow checks. -/
def Reading.deserialize (input : Str) : DRes Reading :=
  match u16Deserialize input with
  | .fatal m => .fatal m
  | .err e r => .err e r
  | .ok whole r1 =>
    match matchLiteral (str ".") r1 with
    | .fatal m => .fatal m
    | .err e r => .err e r
    | .ok _ r2 =>
      match u16Deserialize r2 with
      | .fatal m => .fatal m
      | .err e r => .err e r
      | .ok frac r3 =>
        if 65535 < whole * 1000 then .fatal "attempt to multiply with overflow"
        else if 65535 < whole * 1000 + frac then .fatal "attempt to add with overflow"
        else .ok (Reading.fromMillis (whole * 1000 + frac)) r3

/-- The 2-way addressable channel set (src/commands.rs `Channel`). -/
inductive Channel where
  | one
  | two
  deriving DecidableEq

/-- The `State` token set (`ON`/`OFF`). -/
inductive State where
  | on
  | off
  deriving DecidableEq

/-- The `OperationMode` token set. -/
inductive OperationMode where
  | independent
  | series
  | parallel
  deriving DecidableEq

/-- The `MemorySlot` token set. -/
inductive MemorySlot where
  | one
  | two
  | three
  | four
  | five
  deriving DecidableEq

/-- The deserializer generated by the `scpi_enum!` macro: try each
declared literal in order via `match_literal` (which never consumes on
failure); the first match wins; if no literal matches, fail with the
cursor untouched. -/
def scpiEnumDeserialize {α : Type} (enumName : String) (table : List (Str × α))
    (input : Str) : DRes α :=
  match table with
  | [] => .err (.responseDecoding (.unexpectedToken enumName input)) input
  | (lit, v) :: rest =>
    match matchLiteral lit input with
    | .ok _ r => .ok v r
    | _ => scpiEnumDeserialize enumName rest input

/-- The declared literal table of `Channel`, in declaration order. -/
def Channel.table : List (Str × Channel) := [(str "CH1", .one), (str "CH2", .two)]

/-- `impl ScpiDeserialize for Channel`, as generated by `scpi_enum!`. -/
def Channel.deserialize (input : Str) : DRes Channel :=
  scpiEnumDeserialize "Channel" Channel.table input

/-- `impl ScpiSerialize for MemorySlot`, as generated by `scpi_enum!`. -/
def MemorySlot.serialize : MemorySlot → Str
  | .one => str "1"
  | .two => str "2"
  | .three => str "3"
  | .four => str "4"
  | .five => str "5"

/-- Per-channel regulation mode bit of the status word. -/
inductive ChannelMode where
  | constantVoltage
  | constantCurrent
  deriving DecidableEq

/-- Per-channel display mode bit of the status word. -/
inductive DisplayMode where
  | digitalDisplay
  | waveformDisplay
  deriving DecidableEq

/-- `impl From<bool> for ChannelMode`. -/
def channelModeOfBool : Bool → ChannelMode
  | true => .constantCurrent
  | false => .constantVoltage

/-- `impl From<bool> for DisplayMode`. -/
def displayModeOfBool : Bool → DisplayMode
  | true => .waveformDisplay
  | false => .digitalDisplay

/-- `impl From<bool> for State`. -/
def stateOfBool : Bool → State
  | true => .on
  | false => .off

/-- `ChannelStatus` (src/commands.rs). -/
structure ChannelStatus where
  mode : ChannelMode
  output : State
  timer : State
  display : DisplayMode
  deriving DecidableEq

/-- `SystemStatus` (src/commands.rs). -/
structure SystemStatus where
  operationMode : OperationMode
  channelOne : ChannelStatus
  channelTwo : ChannelStatus
  deriving DecidableEq

/-- `SystemStatusResponse`: the raw 16-bit status word. -/
structure SystemStatusResponse where
  value : Nat
  deriving DecidableEq

/-- `SystemStatusResponse::read_bit`: `(1 << bit) & value > 0`. -/
def SystemStatusResponse.readBit (r : SystemStatusResponse) (bit : Nat) : Bool :=
  0 < (1 <<< bit) &&& r.value

/-- `SystemStatusResponse::decode_operation_mode`: matches on
`value & 0b1100`; the pattern `0b0000` aborts with a panic (and the
remaining patterns are the unreachable-abort arm). -/
def SystemStatusResponse.decodeOperationMode (r : SystemStatusResponse) :
    PanicOr OperationMode :=
  match r.value &&& 12 with
  | 4 => .returned .independent
  | 8 => .returned .parallel
  | 12 => .returned .series
  | 0 => .panicked "Received unexpected, invalid bit pattern 00 for operation mode!"
  | _ => .panicked "internal error: entered unreachable code"

/-- `SystemStatusResponse::decode`: the structured status; propagates the
operation-mode abort. -/
def SystemStatusResponse.decode (r : SystemStatusResponse) : PanicOr SystemStatus :=
  match r.decodeOperationMode with
  | .panicked m => .panicked m
  | .returned om =>
    .returned
      { operationMode := om
        channelOne :=
          { mode := channelModeOfBool (r.readBit 0)
            output := stateOfBool (r.readBit 4)
            timer := stateOfBool (r.readBit 6)
            display := displayModeOfBool (r.readBit 8) }
        channelTwo :=
          { mode := channelModeOfBool (r.readBit 1)
            output := stateOfBool (r.readBit 5)
            timer := stateOfBool (r.readBit 7)
            display := displayModeOfBool (r.readBit 9) } }

/-- Rust `char::is_ascii_hexdigit`. -/
def isAsciiHexDigit (c : Char) : Bool :=
  c.isDigit || ('a' ≤ c && c ≤ 'f') || ('A' ≤ c && c ≤ 'F')

/-- Value of one ASCII hex digit character. -/
def hexDigitVal (c : Char) : Nat :=
  if c.isDigit then c.toNat - 48
  else if 'a' ≤ c then c.toNat - 87
  else c.toNat - 55

/-- The numeric value of a run of hex digit characters. -/
def hexVal (s : Str) : Nat := s.foldl (fun a c => a * 16 + hexDigitVal c) 0

/-- Rust `u16::from_str_radix(s, 16)` on the hex-digit runs produced by
`read_while(is_ascii_hexdigit)`: fails on an empty run or on overflow. -/
def parseHexU16 (s : Str) : Option Nat :=
  if s = [] then none
  else if s.all isAsciiHexDigit then
    if hexVal s ≤ 65535 then some (hexVal s) else none
  else none

/-- `impl ScpiDeserialize for SystemStatusResponse`: literal `0x`, a hex
run parsed base 16, then the line terminator. -/
def SystemStatusResponse.deserialize (input : Str) : DRes SystemStatusResponse :=
  match matchLiteral (str "0x") input with
  | .fatal m => .fatal m
  | .err e r => .err e r
  | .ok _ r1 =>
    let digits := (readWhile isAsciiHexDigit r1).1
    let r2 := (readWhile isAsciiHexDigit r1).2
    match parseHexU16 digits with
    | none => .err (.responseDecoding .hexParsing) r2
    | some v =>
      match matchLiteral (str "\n") r2 with
      | .fatal m => .fatal m
      | .err e r => .err e r
      | .ok _ r3 => .ok ⟨v⟩ r3

/-- `GetTimingParametersResponse` (src/commands.rs). -/
structure GetTimingParametersResponse where
  voltage : Reading
  current : Reading
  time : Reading
  deriving DecidableEq

/-- `impl ScpiDeserialize for GetTimingParametersResponse`: three comma
separated readings; note the source consumes no trailing newline here. -/
def GetTimingParametersResponse.deserialize (input : Str) :
    DRes GetTimingParametersResponse :=
  match Reading.deserialize input with
  | .fatal m => .fatal m
  | .err e r => .err e r
  | .ok voltage r1 =>
    match matchLiteral (str ",") r1 with
    | .fatal m => .fatal m
    | .err e r => .err e r
    | .ok _ r2 =>
      match Reading.deserialize r2 with
      | .fatal m => .fatal m
      | .err e r => .err e r
      | .ok current r3 =>
        match matchLiteral (str ",") r3 with
        | .fatal m => .fatal m
        | .err e r => .err e r
        | .ok _ r4 =>
          match Reading.deserialize r4 with
          | .fatal m => .fatal m
          | .err e r => .err e r
          | .ok time r5 => .ok ⟨voltage, current, time⟩ r5

/-- `TimeInterval` (src/commands.rs): seconds, `u16` in the source. -/
structure TimeInterval where
  val : Nat
  deriving DecidableEq

/-- `impl From<u16> for TimeInterval`: aborts with a panic when the value
exceeds 10000, otherwise wraps it. -/
def TimeInterval.fromU16 (v : Nat) : PanicOr TimeInterval :=
  if 10000 < v then
    .panicked "Time interval value exceeds accepted range for SPD3303X (max. 10000)"
  else .returned ⟨v⟩

/-- `impl ScpiSerialize for TimeInterval`: plain decimal rendering. -/
def TimeInterval.serialize (t : TimeInterval) : Str := natDecimal t.val

/-- `SystemVersionResponse` (src/commands.rs). -/
structure SystemVersionResponse where
  version : Str
  deriving DecidableEq

/-- `impl ScpiDeserialize for SystemVersionResponse`: copies the remaining
input into the version field but does not advance the cursor. -/
def SystemVersionResponse.deserialize (input : Str) : DRes SystemVersionResponse :=
  .ok ⟨input⟩ input

/-- `check_empty` (src/lib.rs): the full-consumption assertion. -/
def checkEmpty (input : Str) : Except Error Unit :=
  if input = [] then .ok () else .error (.responseDecoding (.notEmpty input))

/-- `EmptyResponse` (src/lib.rs): the empty acknowledgement. -/
structure EmptyResponse where
  deriving DecidableEq

/-- `impl ScpiDeserialize for EmptyResponse`: consumes nothing, always
succeeds. -/
def EmptyResponse.deserialize (input : Str) : DRes EmptyResponse :=
  .ok ⟨⟩ input

/-- `SaveRequest` (src/commands.rs). -/
structure SaveRequest where
  slot : MemorySlot

/-- `impl_scpi_serialize!(SaveRequest, ["*SAV ", slot])`. -/
def SaveRequest.serialize (rq : SaveRequest) : Str :=
  str "*SAV " ++ rq.slot.serialize

/-- `impl_scpi_serialize!(SystemVersionRequest, ["SYSTem:VERSion?"])`. -/
def systemVersionRequestText : Str := str "SYSTem:VERSion?"

/-- The session transport: lines written to the device so far, and the
lines still pending on the read side (each as `read_line` returns it,
newline included). -/
structure Transport where
  written : List Str
  pending : List Str
  deriving DecidableEq

/-- One `write_all` of a full buffer. -/
def writeLine (t : Transport) (l : Str) : Transport :=
  { t with written := t.written ++ [l] }

/-- `read_line` on the buffered reader: pops the next pending line; end of
stream yields the empty line. -/
def readLine (pending : List Str) : Str × List Str :=
  match pending with
  | [] => ([], [])
  | l :: ls => (l, ls)

/-- `Spd3303x::send_raw`: encode the request, append a single newline,
write the whole buffer in one operation. -/
def sendRaw (reqText : Str) (t : Transport) : Transport × PanicOr (Except Error Unit) :=
  (writeLine t (reqText ++ ['\n']), .returned (.ok ()))

/-- `Spd3303x::send`: delegates to `send_raw`; no read, no decode. -/
def send (reqText : Str) (t : Transport) : Transport × PanicOr (Except Error Unit) :=
  sendRaw reqText t

/-- `Spd3303x::execute`: write the command line, read one response line,
decode the bound response type from it, then `check_empty`. -/
def executeWith {α : Type} (reqText : Str) (des : Str → DRes α) (t : Transport) :
    Transport × PanicOr (Except Error α) :=
  let t1 := (sendRaw reqText t).1
  let line := (readLine t1.pending).1
  let rest := (readLine t1.pending).2
  let t2 := { t1 with pending := rest }
  (t2,
    match des line with
    | .fatal m => .panicked m
    | .err e _ => .returned (.error e)
    | .ok a r =>
      match checkEmpty r with
      | .ok _ => .returned (.ok a)
      | .error e => .returned (.error e))

/-- Outcome of one connection attempt in the `connect_hostname` loop:
`fatal` models `TcpSocket::new_v4()` failing (which propagates as an I/O
fault), `failed` a connection attempt to be skipped, `connected` a
successful connection. -/
inductive AttemptResult (σ : Type) where
  | fatal
  | failed
  | connected (s : σ)
  deriving DecidableEq

/-- The candidate loop of `connect_hostname`: try each address in order,
skip failed attempts, return on the first success; the second component
records the addresses attempted, in order. -/
def connectLoop {α σ : Type} (attempt : α → AttemptResult σ) :
    List α → Except Error σ × List α
  | [] => (.error (.connectFailed .allFailed), [])
  | a :: rest =>
    match attempt a with
    | .fatal => (.error .ioError, [a])
    | .failed => ((connectLoop attempt rest).1, a :: (connectLoop attempt rest).2)
    | .connected s => (.ok s, [a])

/-- `Spd3303x::connect_hostname`, with name resolution abstracted into the
already-resolved candidate list: fail immediately with no attempts when
resolution was empty, otherwise run the candidate loop. -/
def connectHostname {α σ : Type} (addresses : List α) (attempt : α → AttemptResult σ) :
    Except Error σ × List α :=
  if addresses.isEmpty then (.error (.connectFailed .noAddresses), [])
  else connectLoop attempt addresses

theorem digit_char_toNat {r : Nat} (h : r < 10) : (Char.ofNat (48 + r)).toNat = 48 + r := by
  interval_cases r <;> decide

theorem digit_char_isDigit {r : Nat} (h : r < 10) : (Char.ofNat (48 + r)).isDigit = true := by
  interval_cases r <;> decide

theorem natDecimalAux_all_digits (fuel n : Nat) :
    (natDecimalAux fuel n).all Char.isDigit = true := by
  induction fuel generalizing n with
  | zero => rfl
  | succ fuel ih =>
    cases n with
    | zero => rfl
    | succ m =>
      rw [natDecimalAux, List.all_append]
      simp [ih, digit_char_isDigit (Nat.mod_lt (m + 1) (by norm_num))]

theorem foldl_natDecimalAux (fuel : Nat) :
    ∀ n a, n ≤ fuel →
      List.foldl (fun a c => a * 10 + (c.toNat - 48)) a (natDecimalAux fuel n) =
        a * 10 ^ (natDecimalAux fuel n).length + n := by
  induction fuel with
  | zero =>
    intro n a h
    have hn : n = 0 := Nat.le_zero.mp h
    subst hn
    simp [natDecimalAux]
  | succ fuel ih =>
    intro n a h
    cases n with
    | zero => simp [natDecimalAux]
    | succ m =>
      have hq : (m + 1) / 10 ≤ fuel := by
        have h1 : (m + 1) / 10 < m + 1 := Nat.div_lt_self (Nat.succ_pos m) (by norm_num)
        omega
      rw [natDecimalAux, List.foldl_append, ih _ _ hq, List.length_append]
      simp only [List.foldl_cons, List.foldl_nil, List.length_cons, List.length_nil]
      rw [digit_char_toNat (Nat.mod_lt (m + 1) (by norm_num))]
      have hdm : 10 * ((m + 1) / 10) + (m + 1) % 10 = m + 1 := Nat.div_add_mod (m + 1) 10
      calc (a * 10 ^ (natDecimalAux fuel ((m + 1) / 10)).length + (m + 1) / 10) * 10 +
            (48 + (m + 1) % 10 - 48)
          = a * 10 ^ ((natDecimalAux fuel ((m + 1) / 10)).length + (0 + 1)) +
            (10 * ((m + 1) / 10) + (m + 1) % 10) := by
            rw [Nat.add_sub_self_left]
            ring
        _ = a * 10 ^ ((natDecimalAux fuel ((m + 1) / 10)).length + (0 + 1)) + (m + 1) := by
            rw [hdm]

theorem digitsVal_natDecimal (n : Nat) : digitsVal (natDecimal n) = n := by
  by_cases h : n = 0
  · subst h; decide
  · rw [natDecimal, if_neg h]
    have := foldl_natDecimalAux n n 0 le_rfl
    simpa [digitsVal] using this

theorem natDecimal_all_digits (n : Nat) : (natDecimal n).all Char.isDigit = true := by
  rw [natDecimal]
  split
  · decide
  · exact natDecimalAux_all_digits n n

theorem natDecimal_ne_nil (n : Nat) : natDecimal n ≠ [] := by
  rw [natDecimal]
  split
  · simp
  · rename_i h
    cases n with
    | zero => exact absurd rfl h
    | succ m => rw [natDecimalAux]; simp

theorem pad3_all_digits {s : Str} (h : s.all Char.isDigit = true) :
    (pad3 s).all Char.isDigit = true := by
  rw [pad3, List.all_append, h]
  rw [Bool.and_true]
  rw [List.all_eq_true]
  intro c hc
  rw [List.eq_of_mem_replicate hc]
  decide

theorem pad3_ne_nil {s : Str} (h : s ≠ []) : pad3 s ≠ [] := by
  rw [pad3]
  intro hcon
  rw [List.append_eq_nil] at hcon
  exact h hcon.2

theorem foldl_zeros (k : Nat) :
    List.foldl (fun a c => a * 10 + (c.toNat - 48)) 0 (List.replicate k '0') = 0 := by
  induction k with
  | zero => rfl
  | succ k ih =>
    rw [List.replicate_succ, List.foldl_cons]
    simpa using ih

theorem digitsVal_pad3 (s : Str) : digitsVal (pad3 s) = digitsVal s := by
  rw [pad3, digitsVal, List.foldl_append, foldl_zeros]
  rfl

theorem takeWhile_append_all {p : Char → Bool} (c : Char) (r : Str) (hc : p c = false) :
    ∀ l : Str, l.all p = true →
      (l ++ c :: r).takeWhile p = l ∧ (l ++ c :: r).dropWhile p = c :: r
  | [], _ => by simp [List.takeWhile_cons, List.dropWhile_cons, hc]
  | x :: xs, hl => by
    rw [List.all_cons, Bool.and_eq_true] at hl
    have ih := takeWhile_append_all c r hc xs hl.2
    simp [List.takeWhile_cons, List.dropWhile_cons, hl.1, ih.1, ih.2]

theorem takeWhile_all {p : Char → Bool} :
    ∀ l : Str, l.all p = true → l.takeWhile p = l ∧ l.dropWhile p = []
  | [], _ => by simp
  | x :: xs, hl => by
    rw [List.all_cons, Bool.and_eq_true] at hl
    have ih := takeWhile_all xs hl.2
    simp [List.takeWhile_cons, List.dropWhile_cons, hl.1, ih.1, ih.2]

theorem parseU16_of_digits {s : Str} (hne : s ≠ []) (hd : s.all Char.isDigit = true)
    (hval : digitsVal s ≤ 65535) : parseU16 s = some (digitsVal s) := by
  rw [parseU16, if_neg hne, if_pos hd, if_pos hval]

theorem u16Deserialize_natDecimal_dot (w : Nat) (tail : Str) (hw : w ≤ 65535) :
    u16Deserialize (natDecimal w ++ '.' :: tail) = .ok w ('.' :: tail) := by
  have hsplit := takeWhile_append_all '.' tail (by decide) (natDecimal w)
    (natDecimal_all_digits w)
  rw [u16Deserialize]
  simp only [readWhile, hsplit.1, hsplit.2]
  rw [parseU16_of_digits (natDecimal_ne_nil w) (natDecimal_all_digits w)
    (by rw [digitsVal_natDecimal]; omega)]
  rw [digitsVal_natDecimal]

theorem u16Deserialize_pad3 (f : Nat) (hf : f ≤ 65535) :
    u16Deserialize (pad3 (natDecimal f)) = .ok f [] := by
  have hall := pad3_all_digits (natDecimal_all_digits f)
  have hsplit := takeWhile_all (pad3 (natDecimal f)) hall
  rw [u16Deserialize]
  simp only [readWhile, hsplit.1, hsplit.2]
  rw [parseU16_of_digits (pad3_ne_nil (natDecimal_ne_nil f)) hall
    (by rw [digitsVal_pad3, digitsVal_natDecimal]; omega)]
  rw [digitsVal_pad3, digitsVal_natDecimal]

/-- C1: for every thousandths count `m` in `0..=65535`, serializing
`Reading::from_millis(m)` produces the wire text `<whole>.<frac-3-digits>`
and deserializing that text yields `Reading::from_millis(m)` back with the
text fully consumed. -/
theorem c1_reading_roundtrip (m : Nat) (hm : m ≤ 65535) :
    Reading.deserialize (Reading.serialize (Reading.fromMillis m)) =
      .ok (Reading.fromMillis m) [] := by
  have hw : m / 1000 ≤ 65535 := by omega
  have hf : m % 1000 ≤ 65535 := by omega
  have hmul : m / 1000 * 1000 + m % 1000 = m := Nat.div_add_mod' m 1000
  have hdot : matchLiteral (str ".") ('.' :: pad3 (natDecimal (m % 1000))) =
      .ok () (pad3 (natDecimal (m % 1000))) := rfl
  show Reading.deserialize
      (natDecimal (m / 1000) ++ '.' :: pad3 (natDecimal (m % 1000))) = _
  rw [Reading.deserialize]
  simp only [u16Deserialize_natDecimal_dot (m / 1000) (pad3 (natDecimal (m % 1000))) hw,
    hdot, u16Deserialize_pad3 (m % 1000) hf]
  rw [if_neg (by omega : ¬ 65535 < m / 1000 * 1000)]
  rw [hmul]
  rw [if_neg (by omega : ¬ 65535 < m)]

theorem c1_reading_roundtrip_witness :
    (1337 : Nat) ≤ 65535 ∧
      Reading.deserialize (Reading.serialize (Reading.fromMillis 1337)) =
        .ok (Reading.fromMillis 1337) [] :=
  ⟨by decide, c1_reading_roundtrip 1337 (by decide)⟩

/-- C2: the wire line `0x0224` followed by a newline deserializes to the
16-bit status word 548 = 0x0224 with the line fully consumed, and that
word decodes to: operation mode independent (bits 2 and 3 = 01), CH1 and
CH2 both in constant-voltage mode (bits 0 and 1 = 0), CH1 output off
(bit 4 = 0), CH2 output on (bit 5 = 1), both timers off (bits 6 and
7 = 0), CH1 digital display (bit 8 = 0) and CH2 waveform display
(bit 9 = 1). -/
theorem c2_status_word_decode :
    SystemStatusResponse.deserialize (str "0x0224\n") = .ok ⟨548⟩ [] ∧
    SystemStatusResponse.decode ⟨548⟩ =
      .returned ⟨.independent,
        ⟨.constantVoltage, .off, .off, .digitalDisplay⟩,
        ⟨.constantVoltage, .on, .off, .waveformDisplay⟩⟩ := by
  constructor <;> decide

/-- C3 counterexample: on the status word 544 = 0x0220, whose operation
mode bits 2 and 3 are the pattern 00, `decode` aborts with a panic; it
does not report the problem through any returned fault value (its result
type has no fault channel at all), refuting the claim that the decode
fault is returned as a value. -/
theorem c3_opmode_counterexample :
    SystemStatusResponse.decode ⟨544⟩ =
      .panicked "Received unexpected, invalid bit pattern 00 for operation mode!" := by
  decide

/-- C3 (amended): when the two operation-mode bits (bits 2 and 3) of the
system-status word are the pattern 00, decoding the status aborts with a
panic — a fatal condition rather than a returned fault value — and never
silently defaults the operation mode. -/
theorem c3_opmode_invalid_is_fatal (v : Nat) (h : v &&& 12 = 0) :
    SystemStatusResponse.decode ⟨v⟩ =
      .panicked "Received unexpected, invalid bit pattern 00 for operation mode!" := by
  have hop : SystemStatusResponse.decodeOperationMode ⟨v⟩ =
      .panicked "Received unexpected, invalid bit pattern 00 for operation mode!" := by
    unfold SystemStatusResponse.decodeOperationMode
    rw [show (⟨v⟩ : SystemStatusResponse).value = v from rfl, h]
  unfold SystemStatusResponse.decode
  rw [hop]

theorem c3_opmode_invalid_is_fatal_witness :
    (0 : Nat) &&& 12 = 0 ∧
      SystemStatusResponse.decode ⟨0⟩ =
        .panicked "Received unexpected, invalid bit pattern 00 for operation mode!" :=
  ⟨by decide, c3_opmode_invalid_is_fatal 0 (by decide)⟩

/-- C4: enum-token decode tries the declared literals in declaration
order, first match wins, matching case-exact and anchored at the cursor
(`stripPre` models `strip_prefix`); for every input on which no literal
matches, decode fails and leaves the cursor untouched; decoding `CH2`
against the `Channel` set yields `two` and advances exactly three
characters, and decoding `CH3` against the 2-way `Channel` set fails
without advancing. -/
theorem c4_enum_decode_order :
    (∀ (α : Type) (nm : String) (table : List (Str × α)) (input : Str),
      (∀ p ∈ table, stripPre p.1 input = none) →
        scpiEnumDeserialize nm table input =
          .err (.responseDecoding (.unexpectedToken nm input)) input) ∧
    (∀ (α : Type) (nm : String) (t₁ t₂ : List (Str × α)) (lit : Str) (v : α)
        (input rest : Str),
      (∀ p ∈ t₁, stripPre p.1 input = none) → stripPre lit input = some rest →
        scpiEnumDeserialize nm (t₁ ++ (lit, v) :: t₂) input = .ok v rest) ∧
    Channel.deserialize (str "CH2") = .ok .two [] ∧
    Channel.deserialize (str "CH3") =
      .err (.responseDecoding (.unexpectedToken "Channel" (str "CH3"))) (str "CH3") := by
  refine ⟨?_, ?_, by decide, by decide⟩
  · intro α nm table input
    induction table with
    | nil => intro _; rfl
    | cons p rest ih =>
      intro h
      obtain ⟨lit, v⟩ := p
      have hp : stripPre lit input = none := h (lit, v) (by simp)
      simp [scpiEnumDeserialize, matchLiteral, hp, ih (fun q hq => h q (by simp [hq]))]
  · intro α nm t₁ t₂ lit v input rest
    induction t₁ with
    | nil =>
      intro _ hlit
      simp [scpiEnumDeserialize, matchLiteral, hlit]
    | cons p ts ih =>
      intro h hlit
      obtain ⟨plit, pv⟩ := p
      have hp : stripPre plit input = none := h (plit, pv) (by simp)
      simp [scpiEnumDeserialize, matchLiteral, hp,
        ih (fun q hq => h q (by simp [hq])) hlit]

theorem c4_enum_decode_order_witness :
    scpiEnumDeserialize "Channel" Channel.table (str "CH2X") = .ok Channel.two (str "X") := by
  have h := c4_enum_decode_order.2.1 Channel "Channel" [(str "CH1", Channel.one)] []
    (str "CH2") Channel.two (str "CH2X") (str "X") (by decide) (by decide)
  simpa [Channel.table] using h

/-- C5: decoding the timing-parameters query response from the conformance
fixture line `3,0.5,2` followed by a newline does not succeed: the
decoder requires a literal dot after the first digit run, so it fails with
a decode fault at the first comma instead of yielding the three readings
the claim expects. -/
theorem c5_timing_fixture_decode_fails :
    GetTimingParametersResponse.deserialize (str "3,0.5,2\n") =
      .err (.responseDecoding (.expectedLiteral (str ".") (str ",0.5,2\n")))
        (str ",0.5,2\n") := by
  decide

/-- C6: `connect_hostname` fails without attempting any connection when
resolution yields zero addresses; otherwise it attempts the candidates in
order, skips every candidate whose connection attempt fails, returns the
first successful connection, and fails only when every candidate fails
(the attempt trace is the second component of the result). -/
theorem c6_connect_fallback :
    (∀ (α σ : Type) (attempt : α → AttemptResult σ),
      connectHostname ([] : List α) attempt = (.error (.connectFailed .noAddresses), [])) ∧
    (∀ (α σ : Type) (attempt : α → AttemptResult σ) (l₁ : List α) (a : α) (l₂ : List α)
        (s : σ),
      (∀ x ∈ l₁, attempt x = .failed) → attempt a = .connected s →
        connectHostname (l₁ ++ a :: l₂) attempt = (.ok s, l₁ ++ [a])) ∧
    (∀ (α σ : Type) (attempt : α → AttemptResult σ) (addrs : List α),
      addrs ≠ [] → (∀ x ∈ addrs, attempt x = .failed) →
        connectHostname addrs attempt = (.error (.connectFailed .allFailed), addrs)) := by
  refine ⟨?_, ?_, ?_⟩
  · intro α σ attempt
    rfl
  · intro α σ attempt l₁ a l₂ s h1 h2
    have hloop : ∀ l : List α, (∀ x ∈ l, attempt x = .failed) →
        connectLoop attempt (l ++ a :: l₂) = (.ok s, l ++ [a]) := by
      intro l
      induction l with
      | nil => intro _; simp [connectLoop, h2]
      | cons x xs ih =>
        intro h
        have hx : attempt x = .failed := h x (by simp)
        have hxs := ih (fun y hy => h y (by simp [hy]))
        simp [connectLoop, hx, hxs]
    rw [connectHostname, if_neg (by simp [List.isEmpty_iff])]
    exact hloop l₁ h1
  · intro α σ attempt addrs hne hall
    have hloop : ∀ l : List α, (∀ x ∈ l, attempt x = .failed) →
        connectLoop attempt l = (.error (.connectFailed .allFailed), l) := by
      intro l
      induction l with
      | nil => intro _; rfl
      | cons x xs ih =>
        intro h
        have hx : attempt x = .failed := h x (by simp)
        have hxs := ih (fun y hy => h y (by simp [hy]))
        simp [connectLoop, hx, hxs]
    rw [connectHostname, if_neg (by simp [List.isEmpty_iff, hne])]
    exact hloop addrs hall

theorem c6_connect_fallback_witness :
    connectHostname [0, 1, 2]
        (fun x : Nat => if x = 2 then AttemptResult.connected 7 else .failed) =
      (.ok 7, [0, 1, 2]) := by
  have h := c6_connect_fallback.2.1 Nat Nat
    (fun x : Nat => if x = 2 then AttemptResult.connected 7 else .failed)
    [0, 1] 2 [] 7 (by decide) (by decide)
  simpa using h

/-- C7 counterexample: on a transport with one pending line, `send` of a
save request (bound to the empty acknowledgement) succeeds and leaves the
pending line unread, while `execute` specialized to the empty
acknowledgement reads the line and fails its full-consumption check — so
`send` is neither the same transport interaction nor the same result as
the specialized `execute`. -/
theorem c7_send_execute_differ :
    (send (SaveRequest.serialize ⟨.one⟩) ⟨[], [str "x\n"]⟩).2 = .returned (.ok ()) ∧
    (executeWith (SaveRequest.serialize ⟨.one⟩) EmptyResponse.deserialize
        ⟨[], [str "x\n"]⟩).2 =
      .returned (.error (.responseDecoding (.notEmpty (str "x\n")))) ∧
    (send (SaveRequest.serialize ⟨.one⟩) ⟨[], [str "x\n"]⟩).1.pending = [str "x\n"] ∧
    (executeWith (SaveRequest.serialize ⟨.one⟩) EmptyResponse.deserialize
        ⟨[], [str "x\n"]⟩).1.pending = [] :=
  ⟨rfl, rfl, rfl, rfl⟩

/-- C7 (amended): for request types bound to the empty acknowledgement,
`send` is only the write half of `execute`: it writes the encoded command
line terminated by one newline — the same single write `execute` performs
— and returns success without reading, decoding, or consumption-checking
any response line. -/
theorem c7_send_is_write_only (reqText : Str) (t : Transport) :
    send reqText t = (writeLine t (reqText ++ ['\n']), .returned (.ok ())) ∧
    (send reqText t).1.pending = t.pending ∧
    (send reqText t).1.written =
      (executeWith reqText EmptyResponse.deserialize t).1.written :=
  ⟨rfl, rfl, rfl⟩

/-- C8: evaluation at the failing input: the fixed-point reading decoder
is not fault-value-total — on the well-formed wire text `65.999` the
`u16` computation `whole * 1000 + frac` overflows, which under the
checked arithmetic of the source is a fatal abort rather than a returned
fault, an undesigned fatal case beyond the two the claim lists. -/
theorem c8_reading_decode_overflow_fatal :
    Reading.deserialize (str "65.999") = .fatal "attempt to add with overflow" := by
  decide

/-- C9: for every `u16` value `v`, converting `v` into a `TimeInterval`
aborts exactly when `v` exceeds 10000 and otherwise yields an interval
holding `v`; every interval produced by this conversion serializes as the
plain decimal representation of its value, which is at most 10000, so an
out-of-range value never reaches the wire. -/
theorem c9_time_interval (v : Nat) (hv : v ≤ 65535) :
    (TimeInterval.fromU16 v =
        .panicked "Time interval value exceeds accepted range for SPD3303X (max. 10000)"
      ↔ 10000 < v) ∧
    (∀ t, TimeInterval.fromU16 v = .returned t →
      t.val = v ∧ t.val ≤ 10000 ∧ TimeInterval.serialize t = natDecimal t.val ∧
        digitsVal (natDecimal t.val) = t.val) := by
  constructor
  · constructor
    · intro h
      by_contra hc
      rw [TimeInterval.fromU16, if_neg hc] at h
      exact PanicOr.noConfusion h
    · intro h
      rw [TimeInterval.fromU16, if_pos h]
  · intro t ht
    rw [TimeInterval.fromU16] at ht
    split at ht
    · exact PanicOr.noConfusion ht
    · rename_i hle
      injection ht with ht
      subst ht
      exact ⟨rfl, show v ≤ 10000 by omega, rfl, digitsVal_natDecimal v⟩

theorem c9_time_interval_witness :
    (2 : Nat) ≤ 65535 ∧
      ((⟨2⟩ : TimeInterval).val = 2 ∧ (⟨2⟩ : TimeInterval).val ≤ 10000 ∧
        TimeInterval.serialize ⟨2⟩ = natDecimal (⟨2⟩ : TimeInterval).val ∧
        digitsVal (natDecimal (⟨2⟩ : TimeInterval).val) = (⟨2⟩ : TimeInterval).val) :=
  ⟨by decide, (c9_time_interval 2 (by decide)).2 ⟨2⟩ (by decide)⟩

/-- C10: the system-software-version response decoder copies the remaining
input but never advances the cursor, so for every non-empty response line
the version query fails the full-consumption check with a decode fault;
it can only succeed when the response line is empty. -/
theorem c10_version_query (w : List Str) (line : Str) (ls : List Str) :
    (line ≠ [] →
      (executeWith systemVersionRequestText SystemVersionResponse.deserialize
          ⟨w, line :: ls⟩).2 =
        .returned (.error (.responseDecoding (.notEmpty line)))) ∧
    (line = [] →
      (executeWith systemVersionRequestText SystemVersionResponse.deserialize
          ⟨w, line :: ls⟩).2 = .returned (.ok ⟨[]⟩)) := by
  constructor
  · intro h
    simp [executeWith, sendRaw, writeLine, readLine, SystemVersionResponse.deserialize,
      checkEmpty, h]
  · intro h
    subst h
    simp [executeWith, sendRaw, writeLine, readLine, SystemVersionResponse.deserialize,
      checkEmpty]

theorem c10_version_query_witness :
    str "1.01.01.01.02\n" ≠ [] ∧
      (executeWith systemVersionRequestText SystemVersionResponse.deserialize
          ⟨[], [str "1.01.01.01.02\n"]⟩).2 =
        .returned (.error (.responseDecoding (.notEmpty (str "1.01.01.01.02\n")))) :=
  ⟨by decide, (c10_version_query [] (str "1.01.01.01.02\n") []).1 (by decide)⟩
